import Mathlib

/-!
# DNS Manager — reconciliation engine, verified model

A shallow embedding of the DNS-manager application's reconciliation
engine and of the frontend API client's response interceptor.

The repository ships the React frontend (`App.js`, `DomainDetailPage.jsx`,
`DashboardPage.jsx`, `PresetsPage.jsx`, ...) but the FastAPI backend
(`backend/server.py`), which hosts the ReconciliationEngine, RecordStore,
PresetApplier and RemoteZoneClient, is absent from the source tree.  The
engine definitions below are therefore modelled from the specification's
component-design section (§3–§4.5 of spec.md); each such definition says so
in its doc comment.  The browser-side definitions at the end are translated
directly from `App.js` (the axios interceptors).
-/

namespace DnsManager

/-- DNS record types supported by the application
(spec §3, `RECORD_TYPES` in `DomainDetailPage.jsx`). -/
inductive RecordType
  | A | AAAA | CNAME | MX | TXT | NS | SRV
deriving DecidableEq, Repr

/-- The matching key: (type, name, content).  Spec §3: "within one domain,
the tuple (type, name, content) is unique — it is the matching key used for
reconciliation". -/
abbrev MatchKey := RecordType × String × String

/-- Modelled from the spec: `DNSRecord` (§3).  The backend `server.py`
holding the Pydantic model is missing from the source tree.  One locally
stored DNS record of a single domain; `remoteRecordId = none` means
"exists locally only, not yet pushed". -/
structure DNSRecord where
  id : Nat
  recordType : RecordType
  name : String
  content : String
  ttl : Nat
  priority : Option Nat
  proxied : Bool
  remoteRecordId : Option Nat
deriving DecidableEq, Repr

/-- The matching key of a local record. -/
def DNSRecord.key (l : DNSRecord) : MatchKey := (l.recordType, l.name, l.content)

/-- Modelled from the spec: a remote record snapshot as returned by
`RemoteZoneClient.listRecords` (§4.1); the client itself is in the missing
backend. -/
structure RemoteRecord where
  recordType : RecordType
  name : String
  content : String
  ttl : Nat
  priority : Option Nat
  proxied : Bool
  remoteRecordId : Nat
deriving DecidableEq, Repr

/-- The matching key of a remote snapshot. -/
def RemoteRecord.key (r : RemoteRecord) : MatchKey := (r.recordType, r.name, r.content)

/-- First remote snapshot matching a key, if any. -/
def findRemote (R : List RemoteRecord) (k : MatchKey) : Option RemoteRecord :=
  R.find? fun r => decide (r.key = k)

/-- Modelled from the spec: the in-place update a pull performs on a local
record matched by key — "update its TTL/priority/proxied/remoteRecordId in
place" (§4.3).  Type, name and content (the key) are untouched. -/
def applyRemote (l : DNSRecord) (r : RemoteRecord) : DNSRecord :=
  { l with
    ttl := r.ttl
    priority := r.priority
    proxied := r.proxied
    remoteRecordId := some r.remoteRecordId }

/-- Modelled from the spec: the local record a pull inserts for a remote
record with no local key match — "insert a new local record carrying the
remote id" (§4.3). -/
def recordOfRemote (nid : Nat) (r : RemoteRecord) : DNSRecord :=
  { id := nid
    recordType := r.recordType
    name := r.name
    content := r.content
    ttl := r.ttl
    priority := r.priority
    proxied := r.proxied
    remoteRecordId := some r.remoteRecordId }

/-- Modelled from the spec: insertion of the remote records that had no
local key match, assigning fresh consecutive local ids (§4.3 pull,
"insert a new local record carrying the remote id"). -/
def insertRemotes (nid : Nat) : List RemoteRecord → List DNSRecord
  | [] => []
  | r :: rs => recordOfRemote nid r :: insertRemotes (nid + 1) rs

/-- Modelled from the spec: the per-local-record step of pull (§4.3).
A local record matched by key is updated in place; an unmatched local
record is kept when it has never been pushed (`remoteRecordId = none`) and
deleted when it has a remote id that no longer appears in the remote list. -/
def pullKeep (R : List RemoteRecord) (l : DNSRecord) : Option DNSRecord :=
  match findRemote R l.key with
  | some r => some (applyRemote l r)
  | none => if l.remoteRecordId.isNone then some l else none

/-- The remote records that have no local record matching their key. -/
def unmatchedRemotes (L : List DNSRecord) (R : List RemoteRecord) : List RemoteRecord :=
  R.filter fun r => !(L.any fun l => decide (l.key = r.key))

/-- Modelled from the spec: pull (sync-from-provider), §4.3.  `L` is the
domain's local record list (RecordStore order), `R` the fetched remote
record list, `nid` the next fresh local id.  Matched locals are updated in
place, stale pushed locals are deleted, never-pushed drafts are kept, and
remote records with no local match are inserted. -/
def syncFromRemote (L : List DNSRecord) (R : List RemoteRecord) (nid : Nat) :
    List DNSRecord :=
  L.filterMap (pullKeep R) ++ insertRemotes nid (unmatchedRemotes L R)

/-- Error taxonomy of the engine (spec §7). -/
inductive EngineError
  | authError | networkError | providerError | notFound | busy
  | invalidOperation | zoneNotResolved
deriving DecidableEq, Repr

/-- Modelled from the spec: the record-create operation of the missing
backend (§3 invariant, §8 "attempting to create one is rejected", §7 "MX
without priority" is an `InvalidOperation`).  On success the new record is
appended in creation order with a null remote id. -/
def createRecord (L : List DNSRecord) (nid : Nat) (t : RecordType)
    (n c : String) (ttl : Nat) (prio : Option Nat) (prox : Bool) :
    Except EngineError (List DNSRecord) :=
  if L.any fun l => decide (l.key = (t, n, c)) then
    .error .invalidOperation
  else if t = .MX ∧ prio = none then
    .error .invalidOperation
  else
    .ok (L ++ [⟨nid, t, n, c, ttl, prio, prox, none⟩])

/-- Modelled from the spec: the record-edit operation of the missing
backend.  The edited record keeps its local and remote ids; an edit that
would give it the matching key of another record of the domain is rejected,
preserving the §3 uniqueness invariant. -/
def updateRecord (L : List DNSRecord) (rid : Nat) (t : RecordType)
    (n c : String) (ttl : Nat) (prio : Option Nat) (prox : Bool) :
    Except EngineError (List DNSRecord) :=
  match L.find? fun l => decide (l.id = rid) with
  | none => .error .notFound
  | some _ =>
    if L.any fun l => decide (l.id ≠ rid ∧ l.key = (t, n, c)) then
      .error .invalidOperation
    else
      .ok (L.map fun l =>
        if l.id = rid then
          { l with recordType := t, name := n, content := c,
                   ttl := ttl, priority := prio, proxied := prox }
        else l)

/-- Modelled from the spec: the provider's responses to the per-record
remote calls a push issues (§4.1), abstracted as an oracle so that remote
failures can be simulated.  `createRes` returns the new remote record id on
success, `updateRes` and `deleteRes` return unit; an `error` carries the
per-record cause. -/
structure RemoteOracle where
  createRes : DNSRecord → Except String Nat
  updateRes : DNSRecord → Except String Unit
  deleteRes : Nat → Except String Unit

/-- Outcome of the per-record push step. -/
inductive PushOutcome
  | created | updated | noop
  | failedOp (reason : String)
deriving DecidableEq, Repr

/-- Modelled from the spec: the per-local-record step of push (§4.3 three-way
diff).  A never-pushed record with no remote key match is created remotely
(on success it stores the returned remote id); a pushed record whose matched
remote snapshot differs in ttl/priority/proxied is updated remotely; anything
else is untouched.  A failed remote call leaves the record unchanged and is
reported, not raised (§4.3 partial-failure semantics). -/
def pushLocal (o : RemoteOracle) (R : List RemoteRecord) (l : DNSRecord) :
    DNSRecord × PushOutcome :=
  match l.remoteRecordId, findRemote R l.key with
  | none, none =>
    match o.createRes l with
    | .ok newId => ({ l with remoteRecordId := some newId }, .created)
    | .error e => (l, .failedOp e)
  | some _, some r =>
    if (l.ttl, l.priority, l.proxied) ≠ (r.ttl, r.priority, r.proxied) then
      match o.updateRes l with
      | .ok _ => (l, .updated)
      | .error e => (l, .failedOp e)
    else (l, .noop)
  | none, some _ => (l, .noop)
  | some _, none => (l, .noop)

/-- Summary returned by a push (spec §4.3/§6): counts of
created/updated/deleted, the number of destructive deletes skipped because
no successful pull has happened yet, and the failures with their
per-record cause (record id, reason). -/
structure PushResult where
  created : Nat
  updated : Nat
  deleted : Nat
  skippedDeletes : Nat
  failed : List (Nat × String)
deriving DecidableEq, Repr

/-- Modelled from the spec: push (push-to-provider), §4.3.  `hasPulled`
records whether at least one successful pull has occurred for the domain;
when it is false, the destructive delete class is skipped entirely and the
skipped count is reported.  Every per-record operation is attempted
independently; failures are collected, never raised. -/
def pushToProvider (hasPulled : Bool) (o : RemoteOracle)
    (L : List DNSRecord) (R : List RemoteRecord) :
    List DNSRecord × PushResult :=
  let results := L.map (pushLocal o R)
  let newL := results.map Prod.fst
  let createdCount := results.countP fun p => decide (p.2 = .created)
  let updatedCount := results.countP fun p => decide (p.2 = .updated)
  let localFailures := results.filterMap fun p =>
    match p.2 with
    | .failedOp e => some (p.1.id, e)
    | _ => none
  let unmatched := unmatchedRemotes L R
  if hasPulled then
    let dres := unmatched.map fun r => (r.remoteRecordId, o.deleteRes r.remoteRecordId)
    let deletedCount := dres.countP fun p => p.2.isOk
    let deleteFailures := dres.filterMap fun p =>
      match p.2 with
      | .ok _ => none
      | .error e => some (p.1, e)
    (newL, ⟨createdCount, updatedCount, deletedCount, 0,
            localFailures ++ deleteFailures⟩)
  else
    (newL, ⟨createdCount, updatedCount, 0, unmatched.length, localFailures⟩)

/-- Record types on which the Cloudflare proxy is meaningful
(spec §4.5, and the `["A", "AAAA", "CNAME"].includes(...)` guard in
`DomainDetailPage.jsx`). -/
def proxyable (t : RecordType) : Bool :=
  decide (t = .A) || decide (t = .AAAA) || decide (t = .CNAME)

/-- Result of a proxy toggle (spec §6):
`toggleProxy(domainId, recordId) → {newState: bool, pushed: bool}`. -/
structure ToggleResult where
  newState : Bool
  pushed : Bool
deriving DecidableEq, Repr

/-- Modelled from the spec: the proxy-toggle operation (§4.5).  Flips the
`proxied` flag of one record; only valid for A/AAAA/CNAME, otherwise an
`InvalidOperation` error and no state change.  `pushed` is true exactly
when the record already has a remote id, in which case a single-record
update push is performed; otherwise the flip is local-only. -/
def toggleProxy (L : List DNSRecord) (rid : Nat) :
    Except EngineError (List DNSRecord × ToggleResult) :=
  match L.find? fun l => decide (l.id = rid) with
  | none => .error .notFound
  | some l =>
    if proxyable l.recordType then
      .ok (L.map fun x => if x.id = rid then { x with proxied := !x.proxied } else x,
           ⟨!l.proxied, l.remoteRecordId.isSome⟩)
    else .error .invalidOperation

/-- Modelled from the spec: a preset template record (§3): same shape as
`DNSRecord` minus domain id and remote id; its name may be the apex
placeholder `@` or the wildcard placeholder `*`. -/
structure PresetRecord where
  recordType : RecordType
  name : String
  content : String
  ttl : Nat
  priority : Option Nat
  proxied : Bool
deriving DecidableEq, Repr

/-- Modelled from the spec: placeholder resolution at preset-apply time
(§4.4): a name equal to exactly the apex placeholder resolves to the
concrete domain name, the wildcard placeholder to the wildcard of the
domain, and any other name is used verbatim. -/
def resolveName (domainName : String) (n : String) : String :=
  if n = "@" then domainName
  else if n = "*" then "*." ++ domainName
  else n

/-- Modelled from the spec: the local record a preset template entry
resolves to (§4.4); it has never been pushed, so its remote id is null. -/
def resolveRecord (domainName : String) (nid : Nat) (p : PresetRecord) : DNSRecord :=
  { id := nid
    recordType := p.recordType
    name := resolveName domainName p.name
    content := p.content
    ttl := p.ttl
    priority := p.priority
    proxied := p.proxied
    remoteRecordId := none }

/-- Modelled from the spec: resolution of a whole preset template against a
domain, assigning fresh consecutive local ids (§4.4). -/
def resolveRecords (domainName : String) (nid : Nat) : List PresetRecord → List DNSRecord
  | [] => []
  | p :: ps => resolveRecord domainName nid p :: resolveRecords domainName (nid + 1) ps

/-- Modelled from the spec: the local effect of `applyPreset` (§4.4): the
resolved records replace the domain's records via
`RecordStore.replaceAll`, discarding all prior records `L`, local and
not-yet-pushed alike. -/
def applyPresetLocal (domainName : String) (L : List DNSRecord)
    (P : List PresetRecord) (nid : Nat) : List DNSRecord :=
  let _discarded := L
  resolveRecords domainName nid P

end DnsManager

namespace BrowserClient

/-! Definitions translated from the frontend source `App.js`
(`src/unnamed/part_003`): the axios instance's response interceptor and the
browser state it mutates. -/

/-- The browser-visible client state touched by the interceptor:
`localStorage` as an association list of key/value pairs, and
`window.location.href`. -/
structure BrowserState where
  localStorage : List (String × String)
  locationHref : String
deriving DecidableEq, Repr

/-- `localStorage.removeItem(key)`. -/
def removeItem (store : List (String × String)) (k : String) :
    List (String × String) :=
  store.filter fun p => !(decide (p.1 = k))

/-- axios's default `validateStatus`: a response is a success exactly when
`200 <= status < 300`; any other status is delivered to the error handler
of `api.interceptors.response.use`. -/
def isSuccessStatus (s : Nat) : Bool := 200 ≤ s && s < 300

/-- The error handler installed by `api.interceptors.response.use` in
`App.js`: on a response with status 401 it removes `session_token` and
`user` from localStorage and sets `window.location.href = "/login"`;
otherwise it leaves the browser state alone.  (The handler receives
`error.response?.status`; `none` models a network error with no
response.) -/
def responseErrorHandler (st : BrowserState) (status : Option Nat) : BrowserState :=
  if status = some 401 then
    { localStorage := removeItem (removeItem st.localStorage "session_token") "user"
      locationHref := "/login" }
  else st

/-- One API response processed through the interceptor pair of `App.js`:
a success status passes the response through (no state change, no
rejection); any other status runs the error handler and then rejects the
promise.  The boolean records whether the error is propagated to the
caller (`Promise.reject`). -/
def processResponse (st : BrowserState) (status : Nat) : BrowserState × Bool :=
  if isSuccessStatus status then (st, false)
  else (responseErrorHandler st (some status), true)

end BrowserClient

namespace DnsManager

/-! ## Basic lemmas about the engine's building blocks -/

/-- The pull update leaves the matching key untouched. -/
lemma applyRemote_key (l : DNSRecord) (r : RemoteRecord) :
    (applyRemote l r).key = l.key := rfl

/-- The pull update leaves the local id untouched. -/
lemma applyRemote_id (l : DNSRecord) (r : RemoteRecord) :
    (applyRemote l r).id = l.id := rfl

/-- Applying the same remote snapshot twice is the same as applying it once. -/
lemma applyRemote_idem (l : DNSRecord) (r : RemoteRecord) :
    applyRemote (applyRemote l r) r = applyRemote l r := rfl

/-- An inserted record carries the key of its remote snapshot. -/
lemma recordOfRemote_key (n : Nat) (r : RemoteRecord) :
    (recordOfRemote n r).key = r.key := rfl

/-- A record freshly inserted from a remote snapshot is unchanged by
re-applying that snapshot. -/
lemma applyRemote_recordOfRemote (n : Nat) (r : RemoteRecord) :
    applyRemote (recordOfRemote n r) r = recordOfRemote n r := rfl

end DnsManager

namespace BrowserClient

/-- C10: every response with HTTP status 401 — and no other status —
resets the session: `session_token` and `user` are removed from
localStorage, the browser is sent to `/login`, and the error is still
propagated to the caller.  Any response with a status other than 401
leaves the browser state untouched. -/
theorem interceptor_resets_session_on_401_only (st : BrowserState) (s : Nat) :
    processResponse st 401 =
      ({ localStorage := removeItem (removeItem st.localStorage "session_token") "user"
         locationHref := "/login" }, true)
    ∧ (s ≠ 401 → (processResponse st s).1 = st) := by
  constructor
  · simp [processResponse, isSuccessStatus, responseErrorHandler]
  · intro hs
    unfold processResponse
    by_cases h : isSuccessStatus s = true
    · simp [h]
    · simp only [h]
      simp [responseErrorHandler, hs]

/-- Witness for C10 at a concrete browser state: a 401 response wipes the
session and redirects, while a 404 response leaves the state alone. -/
theorem interceptor_resets_session_on_401_only_witness :
    processResponse ⟨[("session_token", "abc"), ("user", "eggizf"), ("theme", "dark")], "/dashboard"⟩ 401 =
      (⟨[("theme", "dark")], "/login"⟩, true)
    ∧ (processResponse ⟨[("session_token", "abc"), ("user", "eggizf"), ("theme", "dark")], "/dashboard"⟩ 404).1 =
      ⟨[("session_token", "abc"), ("user", "eggizf"), ("theme", "dark")], "/dashboard"⟩ := by
  have h := interceptor_resets_session_on_401_only
    ⟨[("session_token", "abc"), ("user", "eggizf"), ("theme", "dark")], "/dashboard"⟩ 404
  exact ⟨by rw [h.1]; decide, h.2 (by decide)⟩

end BrowserClient

namespace DnsManager

/-- C7: toggling the proxy flag is rejected with an `InvalidOperation`
error — and hence no local or remote state changes — exactly when the
record's type is not A, AAAA or CNAME; on those three types the toggle is
permitted. -/
theorem toggleProxy_type_guard (L : List DNSRecord) (rid : Nat) (l : DNSRecord)
    (hfind : (L.find? fun x => decide (x.id = rid)) = some l) :
    (proxyable l.recordType = false →
       toggleProxy L rid = .error .invalidOperation)
    ∧ (proxyable l.recordType = true →
       ∃ res, toggleProxy L rid = .ok res) := by
  constructor
  · intro hp
    unfold toggleProxy
    rw [hfind]
    simp [hp]
  · intro hp
    unfold toggleProxy
    rw [hfind]
    simp [hp]

/-- Witness for C7: on a domain holding a TXT record and an A record, the
toggle on the TXT record is rejected with `InvalidOperation` while the
toggle on the A record is permitted. -/
theorem toggleProxy_type_guard_witness :
    toggleProxy [⟨1, .TXT, "@", "v=spf1 ~all", 3600, none, false, none⟩,
                 ⟨2, .A, "www", "1.2.3.4", 3600, none, false, none⟩] 1 =
      .error .invalidOperation
    ∧ ∃ res,
        toggleProxy [⟨1, .TXT, "@", "v=spf1 ~all", 3600, none, false, none⟩,
                     ⟨2, .A, "www", "1.2.3.4", 3600, none, false, none⟩] 2 = .ok res := by
  constructor
  · exact (toggleProxy_type_guard
      [⟨1, .TXT, "@", "v=spf1 ~all", 3600, none, false, none⟩,
       ⟨2, .A, "www", "1.2.3.4", 3600, none, false, none⟩] 1
      ⟨1, .TXT, "@", "v=spf1 ~all", 3600, none, false, none⟩ (by decide)).1 (by decide)
  · exact (toggleProxy_type_guard
      [⟨1, .TXT, "@", "v=spf1 ~all", 3600, none, false, none⟩,
       ⟨2, .A, "www", "1.2.3.4", 3600, none, false, none⟩] 2
      ⟨2, .A, "www", "1.2.3.4", 3600, none, false, none⟩ (by decide)).2 (by decide)

/-- C8: a permitted proxy toggle returns `{newState, pushed}` where
`newState` is the flipped proxied value of the found record and `pushed`
is true exactly when the record already carries a remote record id; the
local store has exactly that record's flag flipped. -/
theorem toggleProxy_result_shape (L : List DNSRecord) (rid : Nat) (l : DNSRecord)
    (hfind : (L.find? fun x => decide (x.id = rid)) = some l)
    (hp : proxyable l.recordType = true) :
    toggleProxy L rid =
      .ok (L.map fun x => if x.id = rid then { x with proxied := !x.proxied } else x,
           ⟨!l.proxied, l.remoteRecordId.isSome⟩) := by
  unfold toggleProxy
  rw [hfind]
  simp [hp]

/-- Witness for C8: a pushed A record (remote id present) reports
`pushed = true`, a draft A record (remote id null) reports
`pushed = false`; both report the flipped proxied value. -/
theorem toggleProxy_result_shape_witness :
    toggleProxy [⟨1, .A, "www", "1.2.3.4", 300, none, false, some 7⟩] 1 =
      .ok ([⟨1, .A, "www", "1.2.3.4", 300, none, true, some 7⟩],
           ⟨true, true⟩)
    ∧ toggleProxy [⟨1, .A, "www", "1.2.3.4", 300, none, true, none⟩] 1 =
      .ok ([⟨1, .A, "www", "1.2.3.4", 300, none, false, none⟩],
           ⟨false, false⟩) := by
  have h1 := toggleProxy_result_shape
    [⟨1, .A, "www", "1.2.3.4", 300, none, false, some 7⟩] 1
    ⟨1, .A, "www", "1.2.3.4", 300, none, false, some 7⟩ (by decide) (by decide)
  have h2 := toggleProxy_result_shape
    [⟨1, .A, "www", "1.2.3.4", 300, none, true, none⟩] 1
    ⟨1, .A, "www", "1.2.3.4", 300, none, true, none⟩ (by decide) (by decide)
  exact ⟨by rw [h1]; rfl, by rw [h2]; rfl⟩

/-! ## Preset application (C4) -/

/-- Resolution of a preset template yields one local record per template
record. -/
lemma resolveRecords_length (d : String) (nid : Nat) (P : List PresetRecord) :
    (resolveRecords d nid P).length = P.length := by
  induction P generalizing nid with
  | nil => rfl
  | cons p ps ih => simp [resolveRecords, ih]

/-- Every record produced by preset resolution carries a fresh id, at least
the supplied next-id. -/
lemma resolveRecords_id_ge (d : String) (nid : Nat) (P : List PresetRecord)
    (l : DNSRecord) (hl : l ∈ resolveRecords d nid P) : nid ≤ l.id := by
  induction P generalizing nid with
  | nil => simp [resolveRecords] at hl
  | cons p ps ih =>
    simp only [resolveRecords, List.mem_cons] at hl
    rcases hl with h | h
    · subst h; exact Nat.le_refl _
    · exact Nat.le_of_succ_le (ih (nid + 1) h)

/-- C4: `applyPreset` is a full local replace: after applying a preset whose
template resolves to N records to a domain previously holding the records
`L`, the domain holds exactly the N resolved records, and none of the prior
records — pushed or never-pushed alike — survives (prior records have ids
below the fresh-id counter). -/
theorem applyPreset_full_replace (d : String) (L : List DNSRecord)
    (P : List PresetRecord) (nid : Nat) (hfresh : ∀ l ∈ L, l.id < nid) :
    applyPresetLocal d L P nid = resolveRecords d nid P
    ∧ (applyPresetLocal d L P nid).length = P.length
    ∧ ∀ l ∈ L, l ∉ applyPresetLocal d L P nid := by
  refine ⟨rfl, resolveRecords_length d nid P, ?_⟩
  intro l hl hmem
  exact absurd (resolveRecords_id_ge d nid P l hmem) (Nat.not_le.mpr (hfresh l hl))

/-- Witness for C4: applying a two-record preset to a domain holding three
unrelated records (one of them a never-pushed draft) leaves exactly the two
resolved records and none of the originals. -/
theorem applyPreset_full_replace_witness :
    applyPresetLocal "example.com"
        [⟨1, .TXT, "@", "v=spf1 ~all", 3600, none, false, some 11⟩,
         ⟨2, .MX, "@", "mail.example.com", 3600, some 10, false, some 12⟩,
         ⟨3, .A, "draft", "9.9.9.9", 300, none, false, none⟩]
        [⟨.A, "@", "1.2.3.4", 1, none, true⟩, ⟨.CNAME, "*", "@", 1, none, true⟩] 4 =
      [⟨4, .A, "example.com", "1.2.3.4", 1, none, true, none⟩,
       ⟨5, .CNAME, "*.example.com", "@", 1, none, true, none⟩]
    ∧ (applyPresetLocal "example.com"
        [⟨1, .TXT, "@", "v=spf1 ~all", 3600, none, false, some 11⟩,
         ⟨2, .MX, "@", "mail.example.com", 3600, some 10, false, some 12⟩,
         ⟨3, .A, "draft", "9.9.9.9", 300, none, false, none⟩]
        [⟨.A, "@", "1.2.3.4", 1, none, true⟩, ⟨.CNAME, "*", "@", 1, none, true⟩] 4).length = 2
    ∧ ∀ l ∈ [⟨1, .TXT, "@", "v=spf1 ~all", 3600, none, false, some 11⟩,
             ⟨2, .MX, "@", "mail.example.com", 3600, some 10, false, some 12⟩,
             (⟨3, .A, "draft", "9.9.9.9", 300, none, false, none⟩ : DNSRecord)],
        l ∉ applyPresetLocal "example.com"
          [⟨1, .TXT, "@", "v=spf1 ~all", 3600, none, false, some 11⟩,
           ⟨2, .MX, "@", "mail.example.com", 3600, some 10, false, some 12⟩,
           ⟨3, .A, "draft", "9.9.9.9", 300, none, false, none⟩]
          [⟨.A, "@", "1.2.3.4", 1, none, true⟩, ⟨.CNAME, "*", "@", 1, none, true⟩] 4 := by
  have h := applyPreset_full_replace "example.com"
    [⟨1, .TXT, "@", "v=spf1 ~all", 3600, none, false, some 11⟩,
     ⟨2, .MX, "@", "mail.example.com", 3600, some 10, false, some 12⟩,
     ⟨3, .A, "draft", "9.9.9.9", 300, none, false, none⟩]
    [⟨.A, "@", "1.2.3.4", 1, none, true⟩, ⟨.CNAME, "*", "@", 1, none, true⟩] 4
    (by decide)
  exact ⟨by rw [h.1]; rfl, h.2.1, h.2.2⟩

/-! ## Push before any pull (C5) -/

/-- C5: on a domain for which no successful pull has ever occurred
(`hasPulled = false`), push performs only creates and updates: its result
does not depend on the provider's delete endpoint at all (no delete is
issued), the reported delete count is zero, and the summary reports the
number of skipped deletes — one per remote record unmatched locally. -/
theorem push_skips_deletes_before_pull (o : RemoteOracle)
    (d' : Nat → Except String Unit) (L : List DNSRecord) (R : List RemoteRecord) :
    pushToProvider false o L R =
      pushToProvider false ⟨o.createRes, o.updateRes, d'⟩ L R
    ∧ (pushToProvider false o L R).2.deleted = 0
    ∧ (pushToProvider false o L R).2.skippedDeletes = (unmatchedRemotes L R).length := by
  refine ⟨rfl, rfl, rfl⟩

/-! ## Pull and never-pushed drafts (C1) -/

/-- Counterexample to C1 as stated: a never-pushed draft whose matching key
coincides with a remote record is updated in place by pull (it acquires the
remote record id, ttl and proxied flag), so it does not survive with all
its fields unchanged.  Here the draft `(A, www, 1.2.3.4)` with ttl 3600 and
a null remote id matches a remote snapshot with ttl 1, proxied, remote
id 42: after the pull the original record value is no longer in the store. -/
theorem pull_modifies_matched_draft :
    (⟨1, .A, "www", "1.2.3.4", 3600, none, false, none⟩ : DNSRecord).remoteRecordId = none
    ∧ (⟨1, .A, "www", "1.2.3.4", 3600, none, false, none⟩ : DNSRecord) ∈
        [(⟨1, .A, "www", "1.2.3.4", 3600, none, false, none⟩ : DNSRecord)]
    ∧ (⟨1, .A, "www", "1.2.3.4", 3600, none, false, none⟩ : DNSRecord) ∉
        syncFromRemote [⟨1, .A, "www", "1.2.3.4", 3600, none, false, none⟩]
          [⟨.A, "www", "1.2.3.4", 1, none, true, 42⟩] 5 := by
  refine ⟨rfl, by decide, by decide⟩

/-- C1 amended: pull never deletes a never-pushed draft.  Every local
record with a null remote id is still present after the pull with the same
local id and the same matching key (type, name, content); moreover a draft
whose key matches no remote record is kept entirely unchanged.  (A draft
whose key does match a remote record is linked to it: its
ttl/priority/proxied/remoteRecordId are updated in place, per §4.3.) -/
theorem pull_preserves_drafts (L : List DNSRecord) (R : List RemoteRecord)
    (nid : Nat) (l : DNSRecord) (hl : l ∈ L) (hdraft : l.remoteRecordId = none) :
    (∃ l' ∈ syncFromRemote L R nid, l'.id = l.id ∧ l'.key = l.key)
    ∧ (findRemote R l.key = none → l ∈ syncFromRemote L R nid) := by
  constructor
  · rcases hfind : findRemote R l.key with _ | r
    · refine ⟨l, ?_, rfl, rfl⟩
      unfold syncFromRemote
      refine List.mem_append_left _ (List.mem_filterMap.mpr ⟨l, hl, ?_⟩)
      unfold pullKeep
      rw [hfind, hdraft]
      rfl
    · refine ⟨applyRemote l r, ?_, applyRemote_id l r, applyRemote_key l r⟩
      unfold syncFromRemote
      refine List.mem_append_left _ (List.mem_filterMap.mpr ⟨l, hl, ?_⟩)
      unfold pullKeep
      rw [hfind]
  · intro hfind
    unfold syncFromRemote
    refine List.mem_append_left _ (List.mem_filterMap.mpr ⟨l, hl, ?_⟩)
    unfold pullKeep
    rw [hfind, hdraft]
    rfl

/-- Witness for the amended C1: pulling one remote record into a domain
holding two drafts keeps both drafts — the one matching the remote record
survives with its id and key (now linked to remote id 42), the unrelated
one survives entirely unchanged. -/
theorem pull_preserves_drafts_witness :
    ((⟨1, .A, "www", "1.2.3.4", 3600, none, false, none⟩ : DNSRecord) ∈
        [(⟨1, .A, "www", "1.2.3.4", 3600, none, false, none⟩ : DNSRecord),
         ⟨2, .TXT, "@", "hello", 300, none, false, none⟩]
      ∧ ∃ l' ∈ syncFromRemote
            [⟨1, .A, "www", "1.2.3.4", 3600, none, false, none⟩,
             ⟨2, .TXT, "@", "hello", 300, none, false, none⟩]
            [⟨.A, "www", "1.2.3.4", 1, none, true, 42⟩] 5,
          l'.id = 1 ∧ l'.key = (.A, "www", "1.2.3.4"))
    ∧ (⟨2, .TXT, "@", "hello", 300, none, false, none⟩ : DNSRecord) ∈
        syncFromRemote
          [⟨1, .A, "www", "1.2.3.4", 3600, none, false, none⟩,
           ⟨2, .TXT, "@", "hello", 300, none, false, none⟩]
          [⟨.A, "www", "1.2.3.4", 1, none, true, 42⟩] 5 := by
  have h1 := pull_preserves_drafts
    [⟨1, .A, "www", "1.2.3.4", 3600, none, false, none⟩,
     ⟨2, .TXT, "@", "hello", 300, none, false, none⟩]
    [⟨.A, "www", "1.2.3.4", 1, none, true, 42⟩] 5
    ⟨1, .A, "www", "1.2.3.4", 3600, none, false, none⟩ (by decide) rfl
  have h2 := pull_preserves_drafts
    [⟨1, .A, "www", "1.2.3.4", 3600, none, false, none⟩,
     ⟨2, .TXT, "@", "hello", 300, none, false, none⟩]
    [⟨.A, "www", "1.2.3.4", 1, none, true, 42⟩] 5
    ⟨2, .TXT, "@", "hello", 300, none, false, none⟩ (by decide) rfl
  exact ⟨⟨by decide, h1.1⟩, h2.2 (by decide)⟩

/-! ## Push partial-failure isolation (C6) -/

/-- The local record list a push returns is the independent per-record
image of `pushLocal`: no record's outcome influences another's. -/
lemma pushToProvider_fst (hp : Bool) (o : RemoteOracle)
    (L : List DNSRecord) (R : List RemoteRecord) :
    (pushToProvider hp o L R).1 = L.map fun l => (pushLocal o R l).1 := by
  cases hp <;> simp [pushToProvider]

/-- A pending create whose remote call succeeds stores the returned remote
id on the record. -/
lemma pushLocal_create_ok (o : RemoteOracle) (R : List RemoteRecord)
    (l : DNSRecord) (newId : Nat) (h1 : l.remoteRecordId = none)
    (h2 : findRemote R l.key = none) (h3 : o.createRes l = .ok newId) :
    pushLocal o R l = ({ l with remoteRecordId := some newId }, .created) := by
  unfold pushLocal
  rw [h1, h2, h3]

/-- A pending create whose remote call fails leaves the record unchanged
and reports the per-record cause. -/
lemma pushLocal_create_err (o : RemoteOracle) (R : List RemoteRecord)
    (l : DNSRecord) (e : String) (h1 : l.remoteRecordId = none)
    (h2 : findRemote R l.key = none) (h3 : o.createRes l = .error e) :
    pushLocal o R l = (l, .failedOp e) := by
  unfold pushLocal
  rw [h1, h2, h3]

/-- Three never-pushed draft records, all pending creates. -/
def threeDrafts : List DNSRecord :=
  [⟨1, .A, "alpha", "10.0.0.1", 300, none, false, none⟩,
   ⟨2, .A, "beta", "10.0.0.2", 300, none, false, none⟩,
   ⟨3, .A, "gamma", "10.0.0.3", 300, none, false, none⟩]

/-- A provider oracle that fails the create of the record with local id 2
(the second draft) and succeeds on everything else, simulating one failing
remote call. -/
def failSecondOracle : RemoteOracle where
  createRes l := if l.id = 2 then .error "simulated failure" else .ok (100 + l.id)
  updateRes _ := .ok ()
  deleteRes _ := .ok ()

/-- C6: push has partial-failure isolation.  Each pending create is
attempted regardless of the other records: a succeeding create stores the
returned remote id on its record, a failing create leaves its record
unchanged (remote id still null) and lands in the failure list with its
per-record cause.  In particular, for 3 pending creates whose 2nd remote
call fails, the push reports 2 creates and 1 failure with its cause, the
1st and 3rd records carry remote ids afterwards and the 2nd does not. -/
theorem push_partial_failure_isolation :
    (∀ (o : RemoteOracle) (L : List DNSRecord) (R : List RemoteRecord)
       (l : DNSRecord) (newId : Nat) (e : String),
       l ∈ L → l.remoteRecordId = none → findRemote R l.key = none →
       (o.createRes l = .ok newId →
          { l with remoteRecordId := some newId } ∈ (pushToProvider true o L R).1)
       ∧ (o.createRes l = .error e →
          l ∈ (pushToProvider true o L R).1
          ∧ (l.id, e) ∈ (pushToProvider true o L R).2.failed))
    ∧ pushToProvider true failSecondOracle threeDrafts [] =
        ([⟨1, .A, "alpha", "10.0.0.1", 300, none, false, some 101⟩,
          ⟨2, .A, "beta", "10.0.0.2", 300, none, false, none⟩,
          ⟨3, .A, "gamma", "10.0.0.3", 300, none, false, some 103⟩],
         ⟨2, 0, 0, 0, [(2, "simulated failure")]⟩) := by
  constructor
  · intro o L R l newId e hl h1 h2
    constructor
    · intro h3
      rw [pushToProvider_fst]
      exact List.mem_map.mpr ⟨l, hl, by rw [pushLocal_create_ok o R l newId h1 h2 h3]⟩
    · intro h3
      refine ⟨?_, ?_⟩
      · rw [pushToProvider_fst]
        exact List.mem_map.mpr ⟨l, hl, by rw [pushLocal_create_err o R l e h1 h2 h3]⟩
      · show (l.id, e) ∈ (pushToProvider true o L R).2.failed
        simp only [pushToProvider]
        refine List.mem_append_left _ ?_
        exact List.mem_filterMap.mpr
          ⟨(l, .failedOp e),
           List.mem_map.mpr ⟨l, hl, pushLocal_create_err o R l e h1 h2 h3⟩, rfl⟩
  · rfl

/-- Witness for C6's general part at the concrete scenario: in the
3-pending-creates push with the 2nd create failing, the 1st draft acquires
remote id 101, while the 2nd draft stays unchanged and its failure and
cause are reported. -/
theorem push_partial_failure_isolation_witness :
    (⟨1, .A, "alpha", "10.0.0.1", 300, none, false, some 101⟩ : DNSRecord) ∈
      (pushToProvider true failSecondOracle threeDrafts []).1
    ∧ (⟨2, .A, "beta", "10.0.0.2", 300, none, false, none⟩ : DNSRecord) ∈
      (pushToProvider true failSecondOracle threeDrafts []).1
    ∧ (2, "simulated failure") ∈ (pushToProvider true failSecondOracle threeDrafts []).2.failed := by
  have hok := (push_partial_failure_isolation.1 failSecondOracle threeDrafts []
    ⟨1, .A, "alpha", "10.0.0.1", 300, none, false, none⟩ 101 "x"
    (by decide) rfl rfl).1 rfl
  have herr := (push_partial_failure_isolation.1 failSecondOracle threeDrafts []
    ⟨2, .A, "beta", "10.0.0.2", 300, none, false, none⟩ 0 "simulated failure"
    (by decide) rfl rfl).2 rfl
  exact ⟨hok, herr.1, herr.2⟩

/-! ## Idempotence of pull (C3) -/

/-- In a remote list whose matching keys are pairwise distinct (the
provider rejects exact duplicate records), looking up a member's key finds
exactly that member. -/
lemma findRemote_self (R : List RemoteRecord)
    (hR : R.Pairwise fun a b => a.key ≠ b.key) (r : RemoteRecord) (hr : r ∈ R) :
    findRemote R r.key = some r := by
  induction R with
  | nil => cases hr
  | cons r₀ rs ih =>
    rcases List.pairwise_cons.mp hR with ⟨hhead, htail⟩
    by_cases h : r₀.key = r.key
    · have : r = r₀ := by
        rcases List.mem_cons.mp hr with h' | h'
        · exact h'
        · exact absurd h (hhead r h')
      subst this
      unfold findRemote
      exact List.find?_cons_of_pos _ (by simp)
    · have hmem : r ∈ rs := by
        rcases List.mem_cons.mp hr with h' | h'
        · exact absurd (h' ▸ rfl) h
        · exact h'
      unfold findRemote at ih ⊢
      rw [List.find?_cons_of_neg _ (by simp [h])]
      exact ih htail hmem

/-- A filterMap that fixes every element of a list leaves the list
unchanged. -/
lemma filterMap_fixpoint {α : Type} (f : α → Option α) (l : List α)
    (h : ∀ a ∈ l, f a = some a) : l.filterMap f = l := by
  induction l with
  | nil => rfl
  | cons a l ih =>
    rw [List.filterMap_cons, h a (List.mem_cons_self a l),
        ih fun x hx => h x (List.mem_cons_of_mem a hx)]

/-- Every record produced by `insertRemotes` comes from one of the remote
snapshots being inserted. -/
lemma mem_insertRemotes (n : Nat) (rs : List RemoteRecord) (l : DNSRecord)
    (hl : l ∈ insertRemotes n rs) : ∃ m, ∃ r ∈ rs, l = recordOfRemote m r := by
  induction rs generalizing n with
  | nil => cases hl
  | cons r rs ih =>
    rcases List.mem_cons.mp hl with h | h
    · exact ⟨n, r, List.mem_cons_self r rs, h⟩
    · rcases ih (n + 1) h with ⟨m, r', hr', he⟩
      exact ⟨m, r', List.mem_cons_of_mem r hr', he⟩

/-- Every remote snapshot being inserted yields a record with its key. -/
lemma exists_mem_insertRemotes_key (n : Nat) (rs : List RemoteRecord)
    (r : RemoteRecord) (hr : r ∈ rs) :
    ∃ l ∈ insertRemotes n rs, l.key = r.key := by
  induction rs generalizing n with
  | nil => cases hr
  | cons r₀ rs ih =>
    rcases List.mem_cons.mp hr with h | h
    · exact ⟨recordOfRemote n r₀, List.mem_cons_self _ _, h ▸ recordOfRemote_key n r₀⟩
    · rcases ih (n + 1) h with ⟨l, hl, hk⟩
      exact ⟨l, List.mem_cons_of_mem _ hl, hk⟩

/-- The per-record pull step on a key-matched local record updates it in
place with the matched remote snapshot. -/
lemma pullKeep_of_found (R : List RemoteRecord) (l : DNSRecord)
    (r : RemoteRecord) (hf : findRemote R l.key = some r) :
    pullKeep R l = some (applyRemote l r) := by
  unfold pullKeep
  rw [hf]

/-- The per-record pull step keeps an unmatched never-pushed draft
unchanged. -/
lemma pullKeep_of_not_found_draft (R : List RemoteRecord) (l : DNSRecord)
    (hf : findRemote R l.key = none) (hd : l.remoteRecordId = none) :
    pullKeep R l = some l := by
  unfold pullKeep
  rw [hf, hd]
  rfl

/-- Inversion of the per-record pull step: a kept record is either a
key-matched record updated in place, or an unmatched never-pushed draft
kept verbatim. -/
lemma pullKeep_inv (R : List RemoteRecord) (l₀ l : DNSRecord)
    (h : pullKeep R l₀ = some l) :
    (∃ r, findRemote R l₀.key = some r ∧ l = applyRemote l₀ r)
    ∨ (findRemote R l₀.key = none ∧ l₀.remoteRecordId = none ∧ l = l₀) := by
  unfold pullKeep at h
  rcases hf : findRemote R l₀.key with _ | r <;> simp only [hf] at h
  · right
    split at h
    next hn =>
      exact ⟨rfl, Option.isNone_iff_eq_none.mp hn, (Option.some.inj h).symm⟩
    next => cases h
  · left
    exact ⟨r, rfl, (Option.some.inj h).symm⟩

/-- After one pull, every record of the resulting store is a fixpoint of
the per-record pull step for the same remote list. -/
lemma pullKeep_fix_after_sync (L : List DNSRecord) (R : List RemoteRecord)
    (nid : Nat) (hR : R.Pairwise fun a b => a.key ≠ b.key) :
    ∀ l ∈ syncFromRemote L R nid, pullKeep R l = some l := by
  intro l hl
  unfold syncFromRemote at hl
  rcases List.mem_append.mp hl with hk | hi
  · rcases List.mem_filterMap.mp hk with ⟨l₀, hl₀, hpk⟩
    rcases pullKeep_inv R l₀ l hpk with ⟨r, hf, he⟩ | ⟨hf, hd, he⟩
    · subst he
      rw [pullKeep_of_found R (applyRemote l₀ r) r (by rw [applyRemote_key]; exact hf),
          applyRemote_idem]
    · subst he
      exact pullKeep_of_not_found_draft R _ hf hd
  · rcases mem_insertRemotes nid _ l hi with ⟨m, r, hr, he⟩
    subst he
    have hrR : r ∈ R := (List.mem_filter.mp hr).1
    rw [pullKeep_of_found R (recordOfRemote m r) r
          (by rw [recordOfRemote_key]; exact findRemote_self R hR r hrR),
        applyRemote_recordOfRemote]

/-- After one pull, every remote record has a key match in the local
store, so a second pull inserts nothing. -/
lemma unmatchedRemotes_nil_after_sync (L : List DNSRecord)
    (R : List RemoteRecord) (nid : Nat) :
    unmatchedRemotes (syncFromRemote L R nid) R = [] := by
  unfold unmatchedRemotes
  rw [List.filter_eq_nil_iff]
  intro r hr
  simp only [Bool.not_eq_true', Bool.not_eq_false]
  rw [List.any_eq_true]
  by_cases hmatch : ∃ l₀ ∈ L, l₀.key = r.key
  · rcases hmatch with ⟨l₀, hl₀, hk⟩
    rcases hf : findRemote R l₀.key with _ | r'
    · exact absurd (by simp [hk]) (List.find?_eq_none.mp hf r hr)
    · refine ⟨applyRemote l₀ r', ?_, by simp [applyRemote_key, hk]⟩
      unfold syncFromRemote
      refine List.mem_append_left _ (List.mem_filterMap.mpr ⟨l₀, hl₀, ?_⟩)
      unfold pullKeep
      rw [hf]
  · have hrU : r ∈ unmatchedRemotes L R := by
      unfold unmatchedRemotes
      refine List.mem_filter.mpr ⟨hr, ?_⟩
      have hany : (L.any fun l => decide (l.key = r.key)) = false := by
        rw [List.any_eq_false]
        intro l hl h
        exact hmatch ⟨l, hl, of_decide_eq_true h⟩
      show (!(L.any fun l => decide (l.key = r.key))) = true
      rw [hany]
      rfl
    rcases exists_mem_insertRemotes_key nid _ r hrU with ⟨l, hl, hk⟩
    refine ⟨l, ?_, by simp [hk]⟩
    unfold syncFromRemote
    exact List.mem_append_right _ hl

/-- C3: pull is idempotent.  With the remote record list unchanged between
the two runs (and free of exact-duplicate matching keys, which the
provider rejects), a second pull leaves the local record set exactly as the
first pull left it, whatever fresh-id counters the two runs use. -/
theorem pull_idempotent (L : List DNSRecord) (R : List RemoteRecord)
    (nid nid' : Nat) (hR : R.Pairwise fun a b => a.key ≠ b.key) :
    syncFromRemote (syncFromRemote L R nid) R nid' = syncFromRemote L R nid := by
  have hkeep : (syncFromRemote L R nid).filterMap (pullKeep R) = syncFromRemote L R nid :=
    filterMap_fixpoint _ _ (pullKeep_fix_after_sync L R nid hR)
  show (syncFromRemote L R nid).filterMap (pullKeep R)
      ++ insertRemotes nid' (unmatchedRemotes (syncFromRemote L R nid) R)
    = syncFromRemote L R nid
  rw [hkeep, unmatchedRemotes_nil_after_sync]
  exact List.append_nil _

/-- Witness for C3 on a concrete domain: one draft, one stale pushed
record, one key-matched record, two remote records — the second pull
reproduces the first pull's record set exactly. -/
theorem pull_idempotent_witness :
    syncFromRemote
        (syncFromRemote
          [⟨1, .A, "www", "1.2.3.4", 3600, none, false, some 9⟩,
           ⟨2, .TXT, "@", "draft", 300, none, false, none⟩,
           ⟨3, .CNAME, "old", "gone.example.com", 300, none, false, some 8⟩]
          [⟨.A, "www", "1.2.3.4", 1, none, true, 9⟩,
           ⟨.MX, "@", "mail.example.com", 3600, some 10, false, 77⟩] 4)
        [⟨.A, "www", "1.2.3.4", 1, none, true, 9⟩,
         ⟨.MX, "@", "mail.example.com", 3600, some 10, false, 77⟩] 10
    = syncFromRemote
        [⟨1, .A, "www", "1.2.3.4", 3600, none, false, some 9⟩,
         ⟨2, .TXT, "@", "draft", 300, none, false, none⟩,
         ⟨3, .CNAME, "old", "gone.example.com", 300, none, false, some 8⟩]
        [⟨.A, "www", "1.2.3.4", 1, none, true, 9⟩,
         ⟨.MX, "@", "mail.example.com", 3600, some 10, false, 77⟩] 4 :=
  pull_idempotent
    [⟨1, .A, "www", "1.2.3.4", 3600, none, false, some 9⟩,
     ⟨2, .TXT, "@", "draft", 300, none, false, none⟩,
     ⟨3, .CNAME, "old", "gone.example.com", 300, none, false, some 8⟩]
    [⟨.A, "www", "1.2.3.4", 1, none, true, 9⟩,
     ⟨.MX, "@", "mail.example.com", 3600, some 10, false, 77⟩] 4 10
    (by decide)

/-! ## Matching-key uniqueness (C2) -/

/-- The §3 invariant: within one domain's store, no two records share the
matching key (type, name, content). -/
def KeyUnique (L : List DNSRecord) : Prop :=
  L.Pairwise fun a b => a.key ≠ b.key

/-- Local record ids are pairwise distinct (they are generated fresh). -/
def IdsUnique (L : List DNSRecord) : Prop :=
  L.Pairwise fun a b => a.id ≠ b.id

instance decKeyUnique (L : List DNSRecord) : Decidable (KeyUnique L) := by
  unfold KeyUnique
  infer_instance

instance decIdsUnique (L : List DNSRecord) : Decidable (IdsUnique L) := by
  unfold IdsUnique
  infer_instance

/-- The per-record pull step never changes a record's matching key. -/
lemma pullKeep_key (R : List RemoteRecord) (l₀ l : DNSRecord)
    (h : pullKeep R l₀ = some l) : l.key = l₀.key := by
  rcases pullKeep_inv R l₀ l h with ⟨r, _, he⟩ | ⟨_, _, he⟩
  · rw [he, applyRemote_key]
  · rw [he]

/-- Membership in the unmatched-remotes list: the snapshot is remote and no
local record shares its key. -/
lemma mem_unmatchedRemotes (L : List DNSRecord) (R : List RemoteRecord)
    (r : RemoteRecord) (hr : r ∈ unmatchedRemotes L R) :
    r ∈ R ∧ ∀ l ∈ L, l.key ≠ r.key := by
  unfold unmatchedRemotes at hr
  have hm := List.mem_filter.mp hr
  refine ⟨hm.1, ?_⟩
  have h2 : (L.any fun l => decide (l.key = r.key)) = false := by
    have hb := hm.2
    simp only [Bool.not_eq_true'] at hb
    exact hb
  rw [List.any_eq_false] at h2
  intro l hl heq
  exact h2 l hl (decide_eq_true heq)

/-- Inserting remote snapshots with pairwise-distinct keys yields local
records with pairwise-distinct keys. -/
lemma insertRemotes_keyUnique (n : Nat) (rs : List RemoteRecord)
    (h : rs.Pairwise fun a b => a.key ≠ b.key) :
    (insertRemotes n rs).Pairwise fun a b => a.key ≠ b.key := by
  induction rs generalizing n with
  | nil => exact List.Pairwise.nil
  | cons r rs ih =>
    rcases List.pairwise_cons.mp h with ⟨hhead, htail⟩
    refine List.pairwise_cons.mpr ⟨?_, ih (n + 1) htail⟩
    intro l hl
    rcases mem_insertRemotes (n + 1) rs l hl with ⟨m, r', hr', he⟩
    subst he
    rw [recordOfRemote_key, recordOfRemote_key]
    exact fun heq => hhead r' hr' heq

/-- Pull preserves the matching-key uniqueness invariant (the remote list
itself being duplicate-free, as the provider guarantees). -/
lemma syncFromRemote_keyUnique (L : List DNSRecord) (R : List RemoteRecord)
    (nid : Nat) (hK : KeyUnique L)
    (hR : R.Pairwise fun a b => a.key ≠ b.key) :
    KeyUnique (syncFromRemote L R nid) := by
  unfold KeyUnique syncFromRemote
  rw [List.pairwise_append]
  refine ⟨?_, ?_, ?_⟩
  · refine List.Pairwise.filterMap (pullKeep R) ?_ hK
    intro a a' hne b hb b' hb'
    rw [pullKeep_key R a b (Option.mem_def.mp hb),
        pullKeep_key R a' b' (Option.mem_def.mp hb')]
    exact hne
  · exact insertRemotes_keyUnique nid _ (List.Pairwise.filter _ hR)
  · intro a ha b hb
    rcases List.mem_filterMap.mp ha with ⟨l₀, hl₀, hpk⟩
    rcases mem_insertRemotes nid _ b hb with ⟨m, r, hr, he⟩
    subst he
    rw [pullKeep_key R l₀ a hpk, recordOfRemote_key]
    exact (mem_unmatchedRemotes L R r hr).2 l₀ hl₀

/-- The per-record push step never changes a record's matching key — it
only ever stores a newly assigned remote id. -/
lemma pushLocal_key (o : RemoteOracle) (R : List RemoteRecord) (l : DNSRecord) :
    ((pushLocal o R l).1).key = l.key := by
  unfold pushLocal
  split
  · split <;> rfl
  · split
    · split <;> rfl
    · rfl
  · rfl
  · rfl

/-- Push preserves the matching-key uniqueness invariant. -/
lemma pushToProvider_keyUnique (hp : Bool) (o : RemoteOracle)
    (L : List DNSRecord) (R : List RemoteRecord) (hK : KeyUnique L) :
    KeyUnique (pushToProvider hp o L R).1 := by
  rw [pushToProvider_fst]
  unfold KeyUnique
  rw [List.pairwise_map]
  exact hK.imp fun {a b} h => by rw [pushLocal_key, pushLocal_key]; exact h

/-- A successful create appends the new record; uniqueness is preserved
because a duplicate key would have been rejected. -/
lemma createRecord_ok_keyUnique (L : List DNSRecord) (nid : Nat)
    (t : RecordType) (n c : String) (ttl : Nat) (prio : Option Nat)
    (prox : Bool) (L' : List DNSRecord) (hK : KeyUnique L)
    (h : createRecord L nid t n c ttl prio prox = .ok L') : KeyUnique L' := by
  unfold createRecord at h
  split at h
  · cases h
  next hdup =>
    split at h
    · cases h
    · have he := Except.ok.inj h
      subst he
      unfold KeyUnique
      rw [List.pairwise_append]
      refine ⟨hK, List.pairwise_singleton _ _, ?_⟩
      intro a ha b hb
      rw [List.mem_singleton] at hb
      subst hb
      intro heq
      rw [List.any_eq_true] at hdup
      exact hdup ⟨a, ha, decide_eq_true heq⟩

/-- A successful edit rewrites one record in place; uniqueness is preserved
because an edit colliding with another record's key would have been
rejected. -/
lemma updateRecord_ok_keyUnique (L : List DNSRecord) (rid : Nat)
    (t : RecordType) (n c : String) (ttl : Nat) (prio : Option Nat)
    (prox : Bool) (L' : List DNSRecord) (hK : KeyUnique L) (hI : IdsUnique L)
    (h : updateRecord L rid t n c ttl prio prox = .ok L') : KeyUnique L' := by
  unfold updateRecord at h
  rcases hfind : L.find? fun l => decide (l.id = rid) with _ | l₁ <;>
    simp only [hfind] at h
  · cases h
  split at h
  · cases h
  next hno =>
    have he := Except.ok.inj h
    subst he
    rw [List.any_eq_true] at hno
    unfold KeyUnique
    rw [List.pairwise_map]
    refine List.Pairwise.imp_of_mem ?_ (hK.and hI)
    intro a b ha hb hab
    rcases hab with ⟨hkey, hid⟩
    by_cases ha2 : a.id = rid <;> by_cases hb2 : b.id = rid
    · exact absurd (ha2.trans hb2.symm) hid
    · simp only [if_pos ha2, if_neg hb2]
      intro heq
      exact hno ⟨b, hb, decide_eq_true ⟨hb2, heq.symm⟩⟩
    · simp only [if_neg ha2, if_pos hb2]
      intro heq
      exact hno ⟨a, ha, decide_eq_true ⟨ha2, heq⟩⟩
    · simp only [if_neg ha2, if_neg hb2]
      exact hkey

/-- C2: no two local records of one domain ever share the matching key
(type, name, content).  A create whose key already exists is rejected; and
each operation — create, edit, pull (with a duplicate-free remote list),
push, preset apply (with a duplicate-free resolved template) — preserves
the uniqueness invariant. -/
theorem matching_key_uniqueness :
    (∀ (L : List DNSRecord) (nid : Nat) (t : RecordType) (n c : String)
       (ttl : Nat) (prio : Option Nat) (prox : Bool),
       (L.any fun l => decide (l.key = (t, n, c))) = true →
       createRecord L nid t n c ttl prio prox = .error .invalidOperation)
    ∧ (∀ (L : List DNSRecord) (nid : Nat) (t : RecordType) (n c : String)
         (ttl : Nat) (prio : Option Nat) (prox : Bool) (L' : List DNSRecord),
         KeyUnique L → createRecord L nid t n c ttl prio prox = .ok L' →
         KeyUnique L')
    ∧ (∀ (L : List DNSRecord) (rid : Nat) (t : RecordType) (n c : String)
         (ttl : Nat) (prio : Option Nat) (prox : Bool) (L' : List DNSRecord),
         KeyUnique L → IdsUnique L →
         updateRecord L rid t n c ttl prio prox = .ok L' → KeyUnique L')
    ∧ (∀ (L : List DNSRecord) (R : List RemoteRecord) (nid : Nat),
         KeyUnique L → (R.Pairwise fun a b => a.key ≠ b.key) →
         KeyUnique (syncFromRemote L R nid))
    ∧ (∀ (hp : Bool) (o : RemoteOracle) (L : List DNSRecord)
         (R : List RemoteRecord), KeyUnique L →
         KeyUnique (pushToProvider hp o L R).1)
    ∧ (∀ (d : String) (L : List DNSRecord) (P : List PresetRecord) (nid : Nat),
         KeyUnique (resolveRecords d nid P) →
         KeyUnique (applyPresetLocal d L P nid)) := by
  refine ⟨?_, ?_, ?_, ?_, ?_, ?_⟩
  · intro L nid t n c ttl prio prox h
    unfold createRecord
    rw [if_pos h]
  · intro L nid t n c ttl prio prox L' hK h
    exact createRecord_ok_keyUnique L nid t n c ttl prio prox L' hK h
  · intro L rid t n c ttl prio prox L' hK hI h
    exact updateRecord_ok_keyUnique L rid t n c ttl prio prox L' hK hI h
  · intro L R nid hK hR
    exact syncFromRemote_keyUnique L R nid hK hR
  · intro hp o L R hK
    exact pushToProvider_keyUnique hp o L R hK
  · intro d L P nid h
    exact h

/-- Witness for C2 on concrete stores: a duplicate-key create on a
one-record domain is rejected; a fresh-key create, an edit, a pull, a push
and a preset apply each leave the store's keys pairwise distinct. -/
theorem matching_key_uniqueness_witness :
    createRecord [⟨1, .A, "www", "1.2.3.4", 3600, none, false, none⟩] 2
        .A "www" "1.2.3.4" 300 none false = .error .invalidOperation
    ∧ KeyUnique [⟨1, .A, "www", "1.2.3.4", 3600, none, false, none⟩,
                 ⟨2, .TXT, "@", "hello", 300, none, false, none⟩]
    ∧ KeyUnique [⟨1, .A, "www", "9.9.9.9", 600, none, true, none⟩]
    ∧ KeyUnique (syncFromRemote
        [⟨1, .A, "www", "1.2.3.4", 3600, none, false, none⟩]
        [⟨.MX, "@", "mail.example.com", 3600, some 10, false, 77⟩] 2)
    ∧ KeyUnique (pushToProvider true failSecondOracle threeDrafts []).1
    ∧ KeyUnique (applyPresetLocal "example.com"
        [⟨1, .A, "www", "1.2.3.4", 3600, none, false, none⟩]
        [⟨.A, "@", "1.2.3.4", 1, none, true⟩,
         ⟨.CNAME, "*", "@", 1, none, true⟩] 2) := by
  refine ⟨?_, ?_, ?_, ?_, ?_, ?_⟩
  · exact matching_key_uniqueness.1
      [⟨1, .A, "www", "1.2.3.4", 3600, none, false, none⟩] 2
      .A "www" "1.2.3.4" 300 none false (by decide)
  · exact matching_key_uniqueness.2.1
      [⟨1, .A, "www", "1.2.3.4", 3600, none, false, none⟩] 2
      .TXT "@" "hello" 300 none false
      [⟨1, .A, "www", "1.2.3.4", 3600, none, false, none⟩,
       ⟨2, .TXT, "@", "hello", 300, none, false, none⟩] (by decide) rfl
  · exact matching_key_uniqueness.2.2.1
      [⟨1, .A, "www", "1.2.3.4", 3600, none, false, none⟩] 1
      .A "www" "9.9.9.9" 600 none true
      [⟨1, .A, "www", "9.9.9.9", 600, none, true, none⟩]
      (by decide) (by decide) rfl
  · exact matching_key_uniqueness.2.2.2.1
      [⟨1, .A, "www", "1.2.3.4", 3600, none, false, none⟩]
      [⟨.MX, "@", "mail.example.com", 3600, some 10, false, 77⟩] 2
      (by decide) (by decide)
  · exact matching_key_uniqueness.2.2.2.2.1 true failSecondOracle threeDrafts []
      (by decide)
  · exact matching_key_uniqueness.2.2.2.2.2 "example.com"
      [⟨1, .A, "www", "1.2.3.4", 3600, none, false, none⟩]
      [⟨.A, "@", "1.2.3.4", 1, none, true⟩,
       ⟨.CNAME, "*", "@", 1, none, true⟩] 2 (by decide)

end DnsManager

